import Mathlib

/-!
# Cloudflare Worker: Backblaze B2 read-through proxy with fallback and heal

A shallow embedding of `cloudflare-b2-worker.js`.  The worker's functions
(`handleRequest`, `getB2`, `uploadFile`, `digestBuffer`) are pure Lean
functions over an explicit environment: the platform (`fetch`, `btoa`,
`crypto.subtle.digest`, `JSON.parse`) and the deployment variables are
fields of `Env`, the KV entry `b2` is passed as state, and every call that
leaves the worker is recorded in a trace.  `console.log` calls are not
recorded.
-/

set_option autoImplicit false

namespace B2Worker

/-! ## Content hasher: `digestBuffer` -/

/-- Model of `b.toString(16)` for a non-negative integer: its base-16 digits,
lowercase, most significant first, without padding. -/
def toString16 (b : Nat) : List Char :=
  Nat.toDigits 16 b

/-- Model of `s.padStart(n, c)` for a one-character filler. -/
def padStart (n : Nat) (c : Char) (s : List Char) : List Char :=
  List.replicate (n - s.length) c ++ s

/-- The callback of line 169: `b => b.toString(16).padStart(2, '0')`. -/
def hexByte (b : Nat) : List Char :=
  padStart 2 '0' (toString16 b)

/-- Line 169: `hashArray.map(...).join('')`, as a list of characters. -/
def hexChars (hashArray : List Nat) : List Char :=
  (hashArray.map hexByte).flatten

/-- Line 169 as a string. -/
def hexEncode (hashArray : List Nat) : String :=
  String.mk (hexChars hashArray)

/-- Value of one lowercase hex digit. -/
def hexVal (c : Char) : Option Nat :=
  if c.isDigit then some (c.toNat - '0'.toNat)
  else if 'a'.toNat ≤ c.toNat ∧ c.toNat ≤ 'f'.toNat then some (c.toNat - 'a'.toNat + 10)
  else none

/-- Decoder of the pair encoding: reads two hex digits per byte. -/
def hexDecode : List Char → Option (List Nat)
  | [] => some []
  | [_] => none
  | hi :: lo :: rest =>
    match hexVal hi, hexVal lo, hexDecode rest with
    | some h, some l, some bs => some ((16 * h + l) :: bs)
    | _, _, _ => none

/-- The sixteen characters a hex digest may contain. -/
def hexAlphabet : List Char :=
  ['0', '1', '2', '3', '4', '5', '6', '7', '8', '9', 'a', 'b', 'c', 'd', 'e', 'f']

/-! ## Platform values -/

/-- The JavaScript values that reach the worker's string-valued slots. -/
inductive JSVal where
  | undefined
  | null
  | str (s : String)
  deriving DecidableEq, Repr

/-- String conversion, as performed by `value + '...'`. -/
def JSVal.toStr : JSVal → String
  | .undefined => "undefined"
  | .null => "null"
  | .str s => s

/-- Header list of a `Headers` object, in order. -/
abbrev Headers := List (String × String)

/-- ASCII lowercasing, used to compare header names. -/
def lower (name : String) : String :=
  String.mk (name.data.map Char.toLower)

/-- Header names match byte-case-insensitively. -/
def sameName (a b : String) : Bool :=
  lower a == lower b

/-- Model of `headers.get(name)`: the values of all headers of that name joined by
a comma and a space, `null` when there is none. -/
def headersGet (h : Headers) (name : String) : JSVal :=
  match (h.filter (fun p => sameName p.1 name)).map Prod.snd with
  | [] => .null
  | v :: vs => .str (", ".intercalate (v :: vs))

/-- Worker of `headersSet`; `found` says whether a header of that name was already
overwritten. -/
def headersSetAux (name value : String) : Bool → Headers → Headers
  | found, [] => if found then [] else [(name, value)]
  | found, (k, x) :: t =>
    if sameName k name then
      if found then headersSetAux name value true t
      else (k, value) :: headersSetAux name value true t
    else (k, x) :: headersSetAux name value found t

/-- Model of `headers.set(name, value)`: the first header of that name takes the
value and the others are removed; without one the header is appended. -/
def headersSet (h : Headers) (name value : String) : Headers :=
  headersSetAux name value false h

/-- A `Response`.  `json` is the object `response.json()` resolves to, as its
string-valued fields; the B2 API endpoints answer with a JSON object whose
fields may be absent. -/
structure Response where
  status : Nat
  headers : Headers
  body : List Nat
  json : List (String × String)
  deriving DecidableEq, Repr

/-- Model of `response.ok`: the status is in the range 200 to 299. -/
def Response.ok (r : Response) : Bool :=
  decide (200 ≤ r.status) && decide (r.status ≤ 299)

/-- Model of `data[key]` on a parsed JSON object. -/
def field (data : List (String × String)) (key : String) : JSVal :=
  match data.lookup key with
  | some v => .str v
  | none => .undefined

/-- Body handed to `fetch`. -/
inductive Body where
  | empty
  | text (s : String)
  | bytes (b : List Nat)
  deriving DecidableEq, Repr

/-- The arguments of one `fetch(url, init)` call.  `cf` is `init.cf.cacheTtl`. -/
structure Request where
  url : JSVal
  method : String
  headers : List (String × JSVal)
  body : Body
  cf : Option Nat
  deriving DecidableEq, Repr

/-- The object kept in KV and returned by `getB2` (lines 67 to 72).  A session
is only returned or stored after `uploadurl` was given a string (line 102); the
other members are whatever the B2 answers held. -/
structure Session where
  token : JSVal
  apiurl : JSVal
  uploadurl : String
  uploadtoken : JSVal
  deriving DecidableEq, Repr

/-- What `getB2` resolves to: `false` (line 118) or a session object. -/
inductive B2 where
  | failed
  | session (s : Session)
  deriving DecidableEq, Repr

/-- Model of `b2.uploadtoken`; a property read on `false` is `undefined`. -/
def B2.uploadtoken : B2 → JSVal
  | .failed => .undefined
  | .session s => s.uploadtoken

/-- Model of `b2.uploadurl`; a property read on `false` is `undefined`. -/
def B2.uploadurl : B2 → JSVal
  | .failed => .undefined
  | .session s => .str s.uploadurl

/-- Deployment variables (lines 1 to 6) and the platform functions the worker
calls.  `fetch` answers a call as a function of its arguments and may throw;
`sha1` is `crypto.subtle.digest("SHA-1", buffer)` viewed as bytes; `jsonParse`
is `JSON.parse` on the KV entry, read as an object with the session members,
and may throw. -/
structure Env where
  BUCKET_ID : String
  KEY_ID : String
  APP_KEY : String
  B2_BUCKET_URL : String
  BACKUP_URL : String
  fetch : Request → Except String Response
  btoa : String → String
  sha1 : List Nat → List Nat
  jsonParse : String → Except String Session

/-- One call that leaves the worker. -/
inductive Call where
  | fetch (req : Request)
  | kvGet (key : String)
  | kvPut (key value : String) (expirationTtl : Nat)
  | waitUntil (fileUpload : Response) (path : String)
  deriving DecidableEq, Repr

/-- Outcome of running an async function: the calls it made, in order, and the
value its promise resolves to (`ok`) or rejects with (`error`). -/
structure Run (α : Type) where
  trace : List Call
  result : Except String α

/-- Whether a call is a `fetch`. -/
def Call.isFetch : Call → Bool
  | .fetch _ => true
  | _ => false

/-- Whether a call is a KV write. -/
def Call.isPut : Call → Bool
  | .kvPut _ _ _ => true
  | _ => false

/-- Whether a call schedules a heal task. -/
def Call.isWaitUntil : Call → Bool
  | .waitUntil _ _ => true
  | _ => false

/-- Content of the KV entry `b2` after a sequence of calls. -/
def kvAfter (kv : Option String) : List Call → Option String
  | [] => kv
  | .kvPut _ value _ :: rest => kvAfter (some value) rest
  | _ :: rest => kvAfter kv rest

/-! ## `JSON.stringify` on flat objects -/

/-- One character of `QuoteJSONString`. -/
def escapeChar (c : Char) : List Char :=
  if c = '"' then ['\\', '"']
  else if c = '\\' then ['\\', '\\']
  else if c.toNat = 8 then ['\\', 'b']
  else if c.toNat = 12 then ['\\', 'f']
  else if c.toNat = 10 then ['\\', 'n']
  else if c.toNat = 13 then ['\\', 'r']
  else if c.toNat = 9 then ['\\', 't']
  else if c.toNat < 32 then ['\\', 'u', '0', '0'] ++ hexByte c.toNat
  else [c]

/-- Model of `QuoteJSONString`. -/
def quoteJSON (s : String) : String :=
  String.mk (['"'] ++ (s.data.map escapeChar).flatten ++ ['"'])

/-- One member of a stringified object; `undefined` members are left out. -/
def stringifyMember : String × JSVal → Option String
  | (_, .undefined) => none
  | (k, .null) => some (quoteJSON k ++ ":null")
  | (k, .str s) => some (quoteJSON k ++ ":" ++ quoteJSON s)

/-- Model of `JSON.stringify` on an object whose members are strings, `null` or
`undefined`, in insertion order. -/
def stringify (members : List (String × JSVal)) : String :=
  "\x7b" ++ ",".intercalate (members.filterMap stringifyMember) ++ "\x7d"

/-! ## The worker -/

/-- Line 8. -/
def b2Api : String := "https://api.backblazeb2.com/b2api/v1/"

/-- Line 15: `cloudflareCacheSettings.cacheTtl`. -/
def cloudflareCacheTtl : Nat := 14400

/-- Line 12: `setCache`, a KV write of the key `b2` with a TTL of twelve hours. -/
def setCache (data : String) : Call :=
  .kvPut "b2" data (3600 * 12)

/-- Line 13: `getCache`, a KV read of the key `b2`. -/
def getCache : Call :=
  .kvGet "b2"

/-- Model of `!cache` on what KV returns: `null` and the empty string are falsy. -/
def falsy : Option String → Bool
  | none => true
  | some c => c == ""

/-- Lines 165 to 170. -/
def digestBuffer (env : Env) (buffer : List Nat) : String :=
  hexEncode (env.sha1 buffer)

/-- The request of line 75: `b2_authorize_account` with Basic credentials. -/
def authorizeRequest (env : Env) : Request :=
  { url := .str (b2Api ++ "b2_authorize_account"),
    method := "GET",
    headers := [("Authorization", .str ("Basic " ++ env.btoa (env.KEY_ID ++ ":" ++ env.APP_KEY)))],
    body := .empty,
    cf := none }

/-- The request of lines 84 to 94: `b2_get_upload_url`. -/
def uploadUrlRequest (env : Env) (token apiurl : JSVal) : Request :=
  { url := .str (apiurl.toStr ++ "/b2api/v2/b2_get_upload_url"),
    method := "POST",
    headers := [("Authorization", token)],
    body := .text (stringify [("BUCKET_ID", .str env.BUCKET_ID)]),
    cf := none }

/-- Model of `JSON.stringify(cache)` for the object of lines 67 to 72. -/
def stringifySession (s : Session) : String :=
  stringify [("token", s.token), ("apiurl", s.apiurl), ("uploadurl", .str s.uploadurl),
    ("uploadtoken", s.uploadtoken)]

/-- Lines 58 to 124.  `kv` is the content of the KV entry `b2`. -/
def getB2 (env : Env) (kv : Option String) : Run B2 :=
  if falsy kv then
    match env.fetch (authorizeRequest env) with
    | .error e => ⟨[getCache, .fetch (authorizeRequest env)], .error e⟩
    | .ok accessResponse =>
      if accessResponse.ok then
        let token := field accessResponse.json "authorizationToken"
        let apiurl := field accessResponse.json "apiUrl"
        let req := uploadUrlRequest env token apiurl
        match env.fetch req with
        | .error e => ⟨[getCache, .fetch (authorizeRequest env), .fetch req], .error e⟩
        | .ok uploadResponse =>
          if uploadResponse.ok then
            let uploadtoken := field uploadResponse.json "authorizationToken"
            match field uploadResponse.json "uploadUrl" with
            | .str uploadUrl =>
              if uploadUrl.length > 0 then
                let cache : Session :=
                  { token := token, apiurl := apiurl, uploadurl := uploadUrl,
                    uploadtoken := uploadtoken }
                ⟨[getCache, .fetch (authorizeRequest env), .fetch req,
                    setCache (stringifySession cache)], .ok (.session cache)⟩
              else
                ⟨[getCache, .fetch (authorizeRequest env), .fetch req], .ok .failed⟩
            | _ =>
              ⟨[getCache, .fetch (authorizeRequest env), .fetch req],
                .error "TypeError: Cannot read properties of undefined (reading length)"⟩
          else
            ⟨[getCache, .fetch (authorizeRequest env), .fetch req], .ok .failed⟩
      else
        ⟨[getCache, .fetch (authorizeRequest env)], .ok .failed⟩
  else
    match env.jsonParse (kv.getD "") with
    | .error e => ⟨[getCache], .error e⟩
    | .ok s => ⟨[getCache], .ok (.session s)⟩

/-- The request of lines 137 to 149: the upload call. -/
def uploadRequest (env : Env) (b2 : B2) (fileUpload : Response) (path : String) : Request :=
  { url := b2.uploadurl,
    method := "POST",
    headers :=
      [("Authorization", b2.uploadtoken),
       ("X-Bz-File-Name", .str path),
       ("Content-Type", headersGet fileUpload.headers "Content-Type"),
       ("Content-Length", headersGet fileUpload.headers "Content-Length"),
       ("X-Bz-Content-Sha1", .str (digestBuffer env fileUpload.body))],
    body := .bytes fileUpload.body,
    cf := none }

/-- Model of the runtime's `fetch(url, init)` for a URL that may not be a string:
`undefined` and `null` convert to text that is no absolute URL, so the call
throws a TypeError before anything is sent and no call leaves the worker; with
a string the call is made and the platform answers it.  The other fetches of
the worker always pass a string. -/
def fetchCall (env : Env) (req : Request) : Run Response :=
  match req.url with
  | .str _ => ⟨[.fetch req], env.fetch req⟩
  | _ => ⟨[], .error "TypeError: Invalid URL"⟩

/-- Lines 127 to 162. -/
def uploadFile (env : Env) (kv : Option String) (fileUpload : Response) (path : String) :
    Run Bool :=
  match getB2 env kv with
  | ⟨t, .error e⟩ => ⟨t, .error e⟩
  | ⟨t, .ok b2⟩ =>
    match fetchCall env (uploadRequest env b2 fileUpload path) with
    | ⟨sent, .error e⟩ => ⟨t ++ sent, .error e⟩
    | ⟨sent, .ok response⟩ =>
      if response.ok then ⟨t ++ sent, .ok true⟩
      else ⟨t ++ sent, .ok false⟩

/-- The incoming event: `pathname` is `new URL(event.request.url).pathname` and
`headers` is `event.request.headers`. -/
structure FetchEvent where
  pathname : String
  headers : Headers

/-- Model of `s.substring(1)`. -/
def substring1 (s : String) : String :=
  String.mk (s.data.drop 1)

/-- The requests of lines 27 and 33: a GET with the caller's headers and the edge
cache setting. -/
def originRequest (url : String) (headers : Headers) : Request :=
  { url := .str url,
    method := "GET",
    headers := headers.map (fun p => (p.1, JSVal.str p.2)),
    body := .empty,
    cf := some cloudflareCacheTtl }

/-- The fetch of line 27. -/
def primaryRequest (env : Env) (event : FetchEvent) : Request :=
  originRequest (env.B2_BUCKET_URL ++ substring1 event.pathname) event.headers

/-- The fetch of line 33. -/
def secondaryRequest (env : Env) (event : FetchEvent) : Request :=
  originRequest (env.BACKUP_URL ++ substring1 event.pathname) event.headers

/-- The value of the Cache-Control header set in line 52. -/
def cachePolicy : String :=
  "public, max-age=3600, stale-while-revalidate=3600, stale-if-error=86400"

/-- Lines 51 and 52: a new response with the same body, status and headers, whose
Cache-Control header is then set. -/
def decorate (response : Response) : Response :=
  { response with headers := headersSet response.headers "Cache-Control" cachePolicy }

/-- Lines 21 to 55.  A `waitUntil` call records the arguments of the `uploadFile`
call whose promise it is given. -/
def handleRequest (env : Env) (event : FetchEvent) : Run Response :=
  let path := substring1 event.pathname
  match env.fetch (primaryRequest env event) with
  | .error e => ⟨[.fetch (primaryRequest env event)], .error e⟩
  | .ok response =>
    if !response.ok then
      match env.fetch (secondaryRequest env event) with
      | .error e =>
        ⟨[.fetch (primaryRequest env event), .fetch (secondaryRequest env event)], .error e⟩
      | .ok response =>
        if response.ok then
          ⟨[.fetch (primaryRequest env event), .fetch (secondaryRequest env event),
              .waitUntil response path], .ok (decorate response)⟩
        else
          ⟨[.fetch (primaryRequest env event), .fetch (secondaryRequest env event)],
            .ok (decorate response)⟩
    else
      ⟨[.fetch (primaryRequest env event)], .ok (decorate response)⟩

/-- The heal tasks given to `waitUntil`, run in order against the KV entry. -/
def runTasks (env : Env) : Option String → List Call → List Call
  | _, [] => []
  | kv, .waitUntil fileUpload path :: rest =>
    (uploadFile env kv fileUpload path).trace ++
      runTasks env (kvAfter kv (uploadFile env kv fileUpload path).trace) rest
  | kv, _ :: rest => runTasks env kv rest

/-- Lines 17 to 19: the event listener answers with `handleRequest(event)`; the
runtime then completes the tasks given to `waitUntil`.  The result is the
response and every call made for the event. -/
def serve (env : Env) (kv : Option String) (event : FetchEvent) :
    Except String Response × List Call :=
  ((handleRequest env event).result,
    (handleRequest env event).trace ++ runTasks env kv (handleRequest env event).trace)

/-! ## Example deployment

Concrete platform behaviour used to evaluate the worker: the scenario of a
request for `/images/logo.png` whose body is the seven bytes of `PNGDATA`. -/

/-- A platform `fetch` given by a table from URL to response; a call to any other
URL rejects. -/
def tableFetch (table : List (JSVal × Response)) (req : Request) : Except String Response :=
  match table.lookup req.url with
  | some r => .ok r
  | none => .error "TypeError: Invalid URL"

/-- The bytes of `PNGDATA`. -/
def pngData : List Nat := [80, 78, 71, 68, 65, 84, 65]

/-- The SHA-1 digest of `PNGDATA`. -/
def pngSha1 : List Nat :=
  [17, 171, 150, 178, 244, 164, 40, 129, 151, 176, 92, 48, 137, 137, 229, 86, 56, 193, 64, 97]

/-- A found object. -/
def logoResponse : Response :=
  { status := 200,
    headers := [("content-type", "image/png"), ("cache-control", "no-store"),
      ("content-length", "7")],
    body := pngData,
    json := [] }

/-- A missing object. -/
def notFound : Response :=
  { status := 404,
    headers := [("content-type", "text/plain"), ("x-bz-info", "miss")],
    body := [110, 111],
    json := [] }

/-- A successful `b2_authorize_account` answer. -/
def authorized : Response :=
  { status := 200, headers := [], body := [],
    json := [("authorizationToken", "acct-token"), ("apiUrl", "https://api001.backblazeb2.com")] }

/-- A refused `b2_authorize_account` answer. -/
def unauthorized : Response :=
  { status := 401, headers := [], body := [], json := [("code", "unauthorized")] }

/-- A successful `b2_get_upload_url` answer. -/
def uploadUrlIssued : Response :=
  { status := 200, headers := [], body := [],
    json := [("authorizationToken", "upload-token"),
      ("uploadUrl", "https://pod-000.backblaze.com/b2api/v2/b2_upload_file/abc")] }

/-- A `b2_get_upload_url` answer with a success status and no `uploadUrl` field. -/
def uploadUrlMissing : Response :=
  { status := 200, headers := [], body := [], json := [("authorizationToken", "upload-token")] }

/-- A successful upload answer. -/
def uploaded : Response :=
  { status := 200, headers := [], body := [], json := [("fileName", "images/logo.png")] }

/-- The session the example handshake yields. -/
def exampleSession : Session :=
  { token := .str "acct-token",
    apiurl := .str "https://api001.backblazeb2.com",
    uploadurl := "https://pod-000.backblaze.com/b2api/v2/b2_upload_file/abc",
    uploadtoken := .str "upload-token" }

/-- An example deployment over a fetch table. -/
def exampleEnv (table : List (JSVal × Response)) : Env :=
  { BUCKET_ID := "e73ede9969c64427a54",
    KEY_ID := "0012ab34cd56",
    APP_KEY := "K001secret",
    B2_BUCKET_URL := "https://f001.backblazeb2.com/file/assets/",
    BACKUP_URL := "https://backup.example.com/",
    fetch := tableFetch table,
    btoa := fun s => if s = "0012ab34cd56:K001secret" then "MDAxMmFiMzRjZDU2OkswMDFzZWNyZXQ=" else "",
    sha1 := fun b => if b = pngData then pngSha1 else List.replicate 20 0,
    jsonParse := fun s =>
      if s = stringifySession exampleSession then .ok exampleSession
      else .error "SyntaxError: Unexpected token" }

/-- The URL of the primary copy of the example object. -/
def primaryUrl : JSVal := .str "https://f001.backblazeb2.com/file/assets/images/logo.png"

/-- The URL of the secondary copy of the example object. -/
def secondaryUrl : JSVal := .str "https://backup.example.com/images/logo.png"

/-- The URL of `b2_authorize_account`. -/
def authorizeUrl : JSVal := .str "https://api.backblazeb2.com/b2api/v1/b2_authorize_account"

/-- The URL of `b2_get_upload_url` in the example. -/
def getUploadUrl : JSVal := .str "https://api001.backblazeb2.com/b2api/v2/b2_get_upload_url"

/-- The upload URL issued in the example. -/
def issuedUrl : JSVal := .str "https://pod-000.backblaze.com/b2api/v2/b2_upload_file/abc"

/-- The primary store has the object. -/
def hitEnv : Env :=
  exampleEnv [(primaryUrl, logoResponse)]

/-- Only the secondary source has the object; the handshake and the upload succeed. -/
def healEnv : Env :=
  exampleEnv [(primaryUrl, notFound), (secondaryUrl, logoResponse), (authorizeUrl, authorized),
    (getUploadUrl, uploadUrlIssued), (issuedUrl, uploaded)]

/-- Neither store has the object. -/
def missEnv : Env :=
  exampleEnv [(primaryUrl, notFound), (secondaryUrl, notFound), (authorizeUrl, authorized),
    (getUploadUrl, uploadUrlIssued), (issuedUrl, uploaded)]

/-- Only the secondary source has the object and the authorization is refused. -/
def authFailEnv : Env :=
  exampleEnv [(primaryUrl, notFound), (secondaryUrl, logoResponse), (authorizeUrl, unauthorized)]

/-- The upload-URL answer lacks the `uploadUrl` field. -/
def absentUrlEnv : Env :=
  exampleEnv [(primaryUrl, notFound), (secondaryUrl, logoResponse), (authorizeUrl, authorized),
    (getUploadUrl, uploadUrlMissing)]

/-- A request for `/images/logo.png`. -/
def logoEvent : FetchEvent :=
  { pathname := "/images/logo.png", headers := [("accept", "image/*")] }

/-! ## Hex encoding lemmas -/

set_option maxRecDepth 100000 in
theorem hexByte_digits (b : Nat) (h : b < 256) :
    hexByte b = [Nat.digitChar (b / 16), Nat.digitChar (b % 16)] := by
  have key : ∀ x : Fin 256,
      hexByte x.val = [Nat.digitChar (x.val / 16), Nat.digitChar (x.val % 16)] := by
    decide
  exact key ⟨b, h⟩

theorem digitChar_mem_hexAlphabet (d : Nat) (h : d < 16) : Nat.digitChar d ∈ hexAlphabet := by
  have key : ∀ x : Fin 16, Nat.digitChar x.val ∈ hexAlphabet := by decide
  exact key ⟨d, h⟩

theorem hexVal_digitChar (d : Nat) (h : d < 16) : hexVal (Nat.digitChar d) = some d := by
  have key : ∀ x : Fin 16, hexVal (Nat.digitChar x.val) = some x.val := by decide
  exact key ⟨d, h⟩

theorem hexChars_cons (b : Nat) (bs : List Nat) :
    hexChars (b :: bs) = hexByte b ++ hexChars bs := by
  simp [hexChars]

theorem hexChars_cons_digits (b : Nat) (bs : List Nat) (h : b < 256) :
    hexChars (b :: bs) = Nat.digitChar (b / 16) :: Nat.digitChar (b % 16) :: hexChars bs := by
  rw [hexChars_cons, hexByte_digits b h]
  rfl

theorem hexChars_length (bytes : List Nat) (hb : ∀ b ∈ bytes, b < 256) :
    (hexChars bytes).length = 2 * bytes.length := by
  induction bytes with
  | nil => rfl
  | cons b bs ih =>
    rw [hexChars_cons_digits b bs (hb b (List.mem_cons_self b bs))]
    have := ih (fun x hx => hb x (List.mem_cons_of_mem b hx))
    simp only [List.length_cons, this]
    omega

theorem hexChars_alphabet (bytes : List Nat) (hb : ∀ b ∈ bytes, b < 256) :
    ∀ c ∈ hexChars bytes, c ∈ hexAlphabet := by
  induction bytes with
  | nil => intro c hc; simp [hexChars] at hc
  | cons b bs ih =>
    intro c hc
    rw [hexChars_cons_digits b bs (hb b (List.mem_cons_self b bs))] at hc
    rcases List.mem_cons.mp hc with h1 | hc
    · rw [h1]
      exact digitChar_mem_hexAlphabet _ (by
        have := hb b (List.mem_cons_self b bs)
        omega)
    · rcases List.mem_cons.mp hc with h2 | hc
      · rw [h2]
        exact digitChar_mem_hexAlphabet _ (Nat.mod_lt _ (by decide))
      · exact ih (fun x hx => hb x (List.mem_cons_of_mem b hx)) c hc

theorem hexChars_group (bytes : List Nat) (hb : ∀ b ∈ bytes, b < 256) (i : Nat)
    (hi : i < bytes.length) :
    ((hexChars bytes).drop (2 * i)).take 2 =
      [Nat.digitChar (bytes[i] / 16), Nat.digitChar (bytes[i] % 16)] := by
  induction bytes generalizing i with
  | nil => simp at hi
  | cons b bs ih =>
    rw [hexChars_cons_digits b bs (hb b (List.mem_cons_self b bs))]
    cases i with
    | zero => simp
    | succ j =>
      have hj : j < bs.length := by simpa using hi
      have := ih (fun x hx => hb x (List.mem_cons_of_mem b hx)) j hj
      have e : 2 * (j + 1) = 2 * j + 1 + 1 := by omega
      rw [e]
      simpa using this

theorem hexDecode_hexChars (bytes : List Nat) (hb : ∀ b ∈ bytes, b < 256) :
    hexDecode (hexChars bytes) = some bytes := by
  induction bytes with
  | nil => rfl
  | cons b bs ih =>
    have hlt := hb b (List.mem_cons_self b bs)
    rw [hexChars_cons_digits b bs hlt]
    have h1 : hexVal (Nat.digitChar (b / 16)) = some (b / 16) :=
      hexVal_digitChar _ (by omega)
    have h2 : hexVal (Nat.digitChar (b % 16)) = some (b % 16) :=
      hexVal_digitChar _ (Nat.mod_lt _ (by decide))
    simp only [hexDecode, h1, h2, ih (fun x hx => hb x (List.mem_cons_of_mem b hx))]
    congr 2
    omega

/-- C10: when the hash step yields bytes (each below 256), the string returned by
`digestBuffer` has twice as many characters as there are bytes (40 for the 20
bytes of SHA-1), holds only the characters 0-9 and a-f, its i-th pair of
characters is the two-digit base-16 value of the i-th byte, decoding the pairs
gives the bytes back, and two byte sequences with the same encoding are
equal. -/
theorem digestBuffer_hex (env : Env) (buffer : List Nat)
    (hb : ∀ b ∈ env.sha1 buffer, b < 256) :
    (digestBuffer env buffer).length = 2 * (env.sha1 buffer).length ∧
    ((env.sha1 buffer).length = 20 → (digestBuffer env buffer).length = 40) ∧
    (∀ c ∈ (digestBuffer env buffer).data, c ∈ hexAlphabet) ∧
    (∀ (i : Nat) (hi : i < (env.sha1 buffer).length),
      ((digestBuffer env buffer).data.drop (2 * i)).take 2 =
        [Nat.digitChar ((env.sha1 buffer)[i] / 16), Nat.digitChar ((env.sha1 buffer)[i] % 16)]) ∧
    hexDecode (digestBuffer env buffer).data = some (env.sha1 buffer) ∧
    (∀ other : List Nat, (∀ b ∈ other, b < 256) →
      hexEncode other = digestBuffer env buffer → other = env.sha1 buffer) := by
  have hlen : (digestBuffer env buffer).length = 2 * (env.sha1 buffer).length := by
    simp only [digestBuffer, hexEncode, String.length]
    exact hexChars_length _ hb
  refine ⟨hlen, ?_, ?_, ?_, ?_, ?_⟩
  · intro h20
    rw [hlen, h20]
  · exact hexChars_alphabet _ hb
  · intro i hi
    exact hexChars_group _ hb i hi
  · exact hexDecode_hexChars _ hb
  · intro other ho heq
    have h1 := hexDecode_hexChars other ho
    have h2 := hexDecode_hexChars _ hb
    have e : hexChars other = hexChars (env.sha1 buffer) := by
      have := congrArg String.data heq
      simpa [digestBuffer, hexEncode] using this
    rw [e, h2] at h1
    exact (Option.some.inj h1).symm

/-- C10 on the SHA-1 digest of `PNGDATA`. -/
theorem digestBuffer_hex_witness :
    (∀ b ∈ healEnv.sha1 pngData, b < 256) ∧
    (digestBuffer healEnv pngData).length = 2 * (healEnv.sha1 pngData).length ∧
    ((healEnv.sha1 pngData).length = 20 → (digestBuffer healEnv pngData).length = 40) ∧
    (∀ c ∈ (digestBuffer healEnv pngData).data, c ∈ hexAlphabet) ∧
    (∀ (i : Nat) (hi : i < (healEnv.sha1 pngData).length),
      ((digestBuffer healEnv pngData).data.drop (2 * i)).take 2 =
        [Nat.digitChar ((healEnv.sha1 pngData)[i] / 16),
          Nat.digitChar ((healEnv.sha1 pngData)[i] % 16)]) ∧
    hexDecode (digestBuffer healEnv pngData).data = some (healEnv.sha1 pngData) ∧
    (∀ other : List Nat, (∀ b ∈ other, b < 256) →
      hexEncode other = digestBuffer healEnv pngData → other = healEnv.sha1 pngData) :=
  ⟨by decide, digestBuffer_hex healEnv pngData (by decide)⟩

/-! ## Header lemmas -/

theorem sameName_trans_false (k name other : String) (h1 : sameName k name = true)
    (h2 : sameName other name = false) : sameName k other = false := by
  simp only [sameName, beq_iff_eq, beq_eq_false_iff_ne, ne_eq] at *
  intro h
  exact h2 (h.symm.trans h1)

theorem headersSetAux_filter_other (name value other : String)
    (h : sameName other name = false) (found : Bool) (hs : Headers) :
    (headersSetAux name value found hs).filter (fun p => sameName p.1 other) =
      hs.filter (fun p => sameName p.1 other) := by
  have hn : sameName name other = false := by
    simp only [sameName, beq_eq_false_iff_ne, ne_eq] at *
    exact fun e => h e.symm
  induction hs generalizing found with
  | nil => cases found <;> simp [headersSetAux, hn]
  | cons p t ih =>
    obtain ⟨k, x⟩ := p
    by_cases hk : sameName k name = true
    · have hko := sameName_trans_false k name other hk h
      cases found <;> simp [headersSetAux, hk, hko, ih]
    · have hk2 : sameName k name = false := by simpa using hk
      by_cases hko : sameName k other = true <;> simp [headersSetAux, hk2, hko, ih]

theorem headersSetAux_filter_rest (name value : String) (found : Bool) (hs : Headers) :
    (headersSetAux name value found hs).filter (fun p => !sameName p.1 name) =
      hs.filter (fun p => !sameName p.1 name) := by
  have hn : sameName name name = true := by simp [sameName]
  induction hs generalizing found with
  | nil => cases found <;> simp [headersSetAux, hn]
  | cons p t ih =>
    obtain ⟨k, x⟩ := p
    by_cases hk : sameName k name = true
    · cases found <;> simp [headersSetAux, hk, ih]
    · have hk2 : sameName k name = false := by simpa using hk
      simp [headersSetAux, hk2, ih]

theorem headersSetAux_filter_own (name value : String) (found : Bool) (hs : Headers) :
    ((headersSetAux name value found hs).filter (fun p => sameName p.1 name)).map Prod.snd =
      if found then [] else [value] := by
  have hn : sameName name name = true := by simp [sameName]
  induction hs generalizing found with
  | nil => cases found <;> simp [headersSetAux, hn]
  | cons p t ih =>
    obtain ⟨k, x⟩ := p
    by_cases hk : sameName k name = true
    · cases found <;> simp [headersSetAux, hk, ih]
    · have hk2 : sameName k name = false := by simpa using hk
      simp [headersSetAux, hk2, ih]

theorem headersGet_set_own (hs : Headers) (name value : String) :
    headersGet (headersSet hs name value) name = .str value := by
  have h := headersSetAux_filter_own name value false hs
  simp only [headersGet, headersSet]
  rw [h]
  rfl

theorem headersGet_set_other (hs : Headers) (name value other : String)
    (h : sameName other name = false) :
    headersGet (headersSet hs name value) other = headersGet hs other := by
  simp only [headersGet, headersSet]
  rw [headersSetAux_filter_other name value other h false hs]

/-- What lines 51 and 52 do to a response: status and body are kept, Cache-Control
is the policy, every other header is kept. -/
theorem decorate_spec (r : Response) :
    (decorate r).status = r.status ∧ (decorate r).body = r.body ∧
    headersGet (decorate r).headers "Cache-Control" = .str cachePolicy ∧
    ((decorate r).headers.filter (fun p => sameName p.1 "Cache-Control")).map Prod.snd =
      [cachePolicy] ∧
    (∀ name, sameName name "Cache-Control" = false →
      headersGet (decorate r).headers name = headersGet r.headers name) ∧
    (decorate r).headers.filter (fun p => !sameName p.1 "Cache-Control") =
      r.headers.filter (fun p => !sameName p.1 "Cache-Control") := by
  refine ⟨rfl, rfl, ?_, ?_, ?_, ?_⟩
  · exact headersGet_set_own _ _ _
  · simpa [decorate, headersSet] using
      headersSetAux_filter_own "Cache-Control" cachePolicy false r.headers
  · intro name h
    exact headersGet_set_other _ _ _ _ h
  · exact headersSetAux_filter_rest _ _ _ _

/-! ## The fallback fetch orchestrator -/

/-- C1: when the primary fetch answers with a success status, `handleRequest`
resolves to a response with the primary's status and body, its only call is the
primary fetch (no secondary fetch, no `waitUntil`), and no further call is made
for the event. -/
theorem handleRequest_primary_hit (env : Env) (kv : Option String) (event : FetchEvent)
    (response : Response)
    (hfetch : env.fetch (primaryRequest env event) = .ok response)
    (hok : response.ok = true) :
    (∃ served, (handleRequest env event).result = .ok served ∧
      served.status = response.status ∧ served.body = response.body) ∧
    (handleRequest env event).trace = [.fetch (primaryRequest env event)] ∧
    (serve env kv event).2 = [.fetch (primaryRequest env event)] := by
  have ht : (handleRequest env event).trace = [.fetch (primaryRequest env event)] := by
    simp [handleRequest, hfetch, hok]
  refine ⟨⟨decorate response, ?_, rfl, rfl⟩, ht, ?_⟩
  · simp [handleRequest, hfetch, hok]
  · simp [serve, ht, runTasks]

/-- C1 on the example deployment whose primary store has the object. -/
theorem handleRequest_primary_hit_witness :
    hitEnv.fetch (primaryRequest hitEnv logoEvent) = .ok logoResponse ∧
    logoResponse.ok = true ∧
    (∃ served, (handleRequest hitEnv logoEvent).result = .ok served ∧
      served.status = logoResponse.status ∧ served.body = logoResponse.body) ∧
    (handleRequest hitEnv logoEvent).trace = [.fetch (primaryRequest hitEnv logoEvent)] ∧
    (serve hitEnv none logoEvent).2 = [.fetch (primaryRequest hitEnv logoEvent)] :=
  ⟨by rfl, by rfl, handleRequest_primary_hit hitEnv none logoEvent logoResponse (by rfl) (by rfl)⟩

/-- C2: when the primary fetch answers with a non-success status and the secondary
fetch with a success status, `handleRequest` resolves to a response with the
secondary's status and body, and its calls are the two fetches followed by one
`waitUntil` of `uploadFile` on the secondary response (a copy with the same
body) and the request path; the runtime then runs that one heal task. -/
theorem handleRequest_secondary_hit (env : Env) (kv : Option String) (event : FetchEvent)
    (primary secondary : Response)
    (h1 : env.fetch (primaryRequest env event) = .ok primary)
    (hp : primary.ok = false)
    (h2 : env.fetch (secondaryRequest env event) = .ok secondary)
    (hs : secondary.ok = true) :
    (∃ served, (handleRequest env event).result = .ok served ∧
      served.status = secondary.status ∧ served.body = secondary.body) ∧
    (handleRequest env event).trace =
      [.fetch (primaryRequest env event), .fetch (secondaryRequest env event),
        .waitUntil secondary (substring1 event.pathname)] ∧
    (handleRequest env event).trace.filter Call.isWaitUntil =
      [.waitUntil secondary (substring1 event.pathname)] ∧
    (serve env kv event).2 =
      (handleRequest env event).trace ++
        (uploadFile env kv secondary (substring1 event.pathname)).trace := by
  have ht : (handleRequest env event).trace =
      [.fetch (primaryRequest env event), .fetch (secondaryRequest env event),
        .waitUntil secondary (substring1 event.pathname)] := by
    simp [handleRequest, h1, hp, h2, hs]
  refine ⟨⟨decorate secondary, ?_, rfl, rfl⟩, ht, ?_, ?_⟩
  · simp [handleRequest, h1, hp, h2, hs]
  · simp [ht, Call.isWaitUntil]
  · simp [serve, ht, runTasks]

/-- C2 on the example deployment where only the secondary source has the object. -/
theorem handleRequest_secondary_hit_witness :
    healEnv.fetch (primaryRequest healEnv logoEvent) = .ok notFound ∧
    notFound.ok = false ∧
    healEnv.fetch (secondaryRequest healEnv logoEvent) = .ok logoResponse ∧
    logoResponse.ok = true ∧
    (∃ served, (handleRequest healEnv logoEvent).result = .ok served ∧
      served.status = logoResponse.status ∧ served.body = logoResponse.body) ∧
    (handleRequest healEnv logoEvent).trace =
      [.fetch (primaryRequest healEnv logoEvent), .fetch (secondaryRequest healEnv logoEvent),
        .waitUntil logoResponse (substring1 logoEvent.pathname)] ∧
    (handleRequest healEnv logoEvent).trace.filter Call.isWaitUntil =
      [.waitUntil logoResponse (substring1 logoEvent.pathname)] ∧
    (serve healEnv none logoEvent).2 =
      (handleRequest healEnv logoEvent).trace ++
        (uploadFile healEnv none logoResponse (substring1 logoEvent.pathname)).trace :=
  ⟨by rfl, by rfl, by rfl, by rfl,
    handleRequest_secondary_hit healEnv none logoEvent notFound logoResponse
      (by rfl) (by rfl) (by rfl) (by rfl)⟩

/-- C3: when both fetches answer with a non-success status, `handleRequest`
resolves to a response with the secondary's status and body whose headers other
than Cache-Control are the secondary's; its calls are exactly one primary and
one secondary fetch, no heal task is scheduled, and no further call (so no
upload) is made for the event. -/
theorem handleRequest_both_miss (env : Env) (kv : Option String) (event : FetchEvent)
    (primary secondary : Response)
    (h1 : env.fetch (primaryRequest env event) = .ok primary)
    (hp : primary.ok = false)
    (h2 : env.fetch (secondaryRequest env event) = .ok secondary)
    (hs : secondary.ok = false) :
    (∃ served, (handleRequest env event).result = .ok served ∧
      served.status = secondary.status ∧ served.body = secondary.body ∧
      (∀ name, sameName name "Cache-Control" = false →
        headersGet served.headers name = headersGet secondary.headers name) ∧
      served.headers.filter (fun p => !sameName p.1 "Cache-Control") =
        secondary.headers.filter (fun p => !sameName p.1 "Cache-Control")) ∧
    (handleRequest env event).trace =
      [.fetch (primaryRequest env event), .fetch (secondaryRequest env event)] ∧
    (handleRequest env event).trace.filter Call.isWaitUntil = [] ∧
    (serve env kv event).2 =
      [.fetch (primaryRequest env event), .fetch (secondaryRequest env event)] := by
  have ht : (handleRequest env event).trace =
      [.fetch (primaryRequest env event), .fetch (secondaryRequest env event)] := by
    simp [handleRequest, h1, hp, h2, hs]
  have hd := decorate_spec secondary
  refine ⟨⟨decorate secondary, ?_, rfl, rfl, hd.2.2.2.2.1, hd.2.2.2.2.2⟩, ht, ?_, ?_⟩
  · simp [handleRequest, h1, hp, h2, hs]
  · simp [ht, Call.isWaitUntil]
  · simp [serve, ht, runTasks]

/-- C3 on the example deployment where neither store has the object. -/
theorem handleRequest_both_miss_witness :
    missEnv.fetch (primaryRequest missEnv logoEvent) = .ok notFound ∧
    notFound.ok = false ∧
    missEnv.fetch (secondaryRequest missEnv logoEvent) = .ok notFound ∧
    (∃ served, (handleRequest missEnv logoEvent).result = .ok served ∧
      served.status = notFound.status ∧ served.body = notFound.body ∧
      (∀ name, sameName name "Cache-Control" = false →
        headersGet served.headers name = headersGet notFound.headers name) ∧
      served.headers.filter (fun p => !sameName p.1 "Cache-Control") =
        notFound.headers.filter (fun p => !sameName p.1 "Cache-Control")) ∧
    (handleRequest missEnv logoEvent).trace =
      [.fetch (primaryRequest missEnv logoEvent), .fetch (secondaryRequest missEnv logoEvent)] ∧
    (handleRequest missEnv logoEvent).trace.filter Call.isWaitUntil = [] ∧
    (serve missEnv none logoEvent).2 =
      [.fetch (primaryRequest missEnv logoEvent), .fetch (secondaryRequest missEnv logoEvent)] :=
  ⟨by rfl, by rfl, by rfl,
    handleRequest_both_miss missEnv none logoEvent notFound notFound
      (by rfl) (by rfl) (by rfl) (by rfl)⟩

/-- C4: whichever upstream response is chosen (the primary's on primary success,
otherwise the secondary's, success or not), `handleRequest` resolves to a
response whose Cache-Control header is the one fixed policy string, in place of
any Cache-Control the upstream sent, and whose other headers are the chosen
upstream response's, unchanged. -/
theorem handleRequest_cache_control (env : Env) (event : FetchEvent) (upstream : Response)
    (hchosen :
      (env.fetch (primaryRequest env event) = .ok upstream ∧ upstream.ok = true) ∨
      (∃ primary, env.fetch (primaryRequest env event) = .ok primary ∧ primary.ok = false ∧
        env.fetch (secondaryRequest env event) = .ok upstream)) :
    ∃ served, (handleRequest env event).result = .ok served ∧
      headersGet served.headers "Cache-Control" =
        .str "public, max-age=3600, stale-while-revalidate=3600, stale-if-error=86400" ∧
      (served.headers.filter (fun p => sameName p.1 "Cache-Control")).map Prod.snd =
        ["public, max-age=3600, stale-while-revalidate=3600, stale-if-error=86400"] ∧
      (∀ name, sameName name "Cache-Control" = false →
        headersGet served.headers name = headersGet upstream.headers name) ∧
      served.headers.filter (fun p => !sameName p.1 "Cache-Control") =
        upstream.headers.filter (fun p => !sameName p.1 "Cache-Control") := by
  have hd := decorate_spec upstream
  refine ⟨decorate upstream, ?_, hd.2.2.1, hd.2.2.2.1, hd.2.2.2.2.1, hd.2.2.2.2.2⟩
  rcases hchosen with ⟨h1, hok⟩ | ⟨primary, h1, hp, h2⟩
  · simp [handleRequest, h1, hok]
  · cases hs : upstream.ok <;> simp [handleRequest, h1, hp, h2, hs]

/-- C4 on the example deployment, for a secondary response that carries its own
Cache-Control header. -/
theorem handleRequest_cache_control_witness :
    ((healEnv.fetch (primaryRequest healEnv logoEvent) = .ok logoResponse ∧
        logoResponse.ok = true) ∨
      (∃ primary, healEnv.fetch (primaryRequest healEnv logoEvent) = .ok primary ∧
        primary.ok = false ∧
        healEnv.fetch (secondaryRequest healEnv logoEvent) = .ok logoResponse)) ∧
    ∃ served, (handleRequest healEnv logoEvent).result = .ok served ∧
      headersGet served.headers "Cache-Control" =
        .str "public, max-age=3600, stale-while-revalidate=3600, stale-if-error=86400" ∧
      (served.headers.filter (fun p => sameName p.1 "Cache-Control")).map Prod.snd =
        ["public, max-age=3600, stale-while-revalidate=3600, stale-if-error=86400"] ∧
      (∀ name, sameName name "Cache-Control" = false →
        headersGet served.headers name = headersGet logoResponse.headers name) ∧
      served.headers.filter (fun p => !sameName p.1 "Cache-Control") =
        logoResponse.headers.filter (fun p => !sameName p.1 "Cache-Control") :=
  ⟨Or.inr ⟨notFound, by rfl, by rfl, by rfl⟩,
    handleRequest_cache_control healEnv logoEvent logoResponse
      (Or.inr ⟨notFound, by rfl, by rfl, by rfl⟩)⟩

/-! ## The credential cache -/

/-- On a cache miss with a refused or failed authorization, `getB2` stops after the
authorize call and resolves to `false` (or rejects when the call itself threw). -/
theorem getB2_miss_trace_authorize_failed (env : Env) (kv : Option String)
    (hmiss : falsy kv = true)
    (hauth : ∀ r, env.fetch (authorizeRequest env) = .ok r → r.ok = false) :
    (getB2 env kv).trace = [getCache, .fetch (authorizeRequest env)] := by
  unfold getB2
  rw [if_pos hmiss]
  cases hf : env.fetch (authorizeRequest env) with
  | error e => rfl
  | ok r => simp [hauth r hf]

/-- On a cache miss with a successful authorization, the calls of `getB2` are the
KV read, the authorize call, the upload-URL call and at most a KV write. -/
theorem getB2_miss_trace_authorized (env : Env) (kv : Option String) (r : Response)
    (hmiss : falsy kv = true)
    (hf : env.fetch (authorizeRequest env) = .ok r) (hok : r.ok = true) :
    ∃ rest, (getB2 env kv).trace =
        [getCache, .fetch (authorizeRequest env),
          .fetch (uploadUrlRequest env (field r.json "authorizationToken")
            (field r.json "apiUrl"))] ++ rest ∧
      rest.filter Call.isFetch = [] := by
  unfold getB2
  rw [if_pos hmiss]
  simp only [hf, hok, if_true]
  cases hu : env.fetch (uploadUrlRequest env (field r.json "authorizationToken")
      (field r.json "apiUrl")) with
  | error e => exact ⟨[], rfl, rfl⟩
  | ok u =>
    cases huok : u.ok with
    | false => exact ⟨[], by simp [huok], rfl⟩
    | true =>
      cases hfield : field u.json "uploadUrl" with
      | undefined => exact ⟨[], by simp [huok, hfield], rfl⟩
      | null => exact ⟨[], by simp [huok, hfield], rfl⟩
      | str url =>
        by_cases hlen : url.length > 0
        · refine ⟨[setCache (stringifySession
            { token := field r.json "authorizationToken", apiurl := field r.json "apiUrl",
              uploadurl := url,
              uploadtoken := field u.json "authorizationToken" })],
            by simp [huok, hfield, hlen], rfl⟩
        · exact ⟨[], by simp [huok, hfield, hlen], rfl⟩

/-- C6: on a cache hit (KV returns a non-empty string) `getB2` makes no call
besides the KV read (no authorize call, no upload-URL call, no KV write) and
resolves to the deserialized session; on a cache miss (KV returns nothing or
the empty string) its fetches are exactly one authorize call followed, when
that call answered with a success status, by exactly one upload-URL call, and
the authorize call alone when it did not. -/
theorem getB2_calls (env : Env) (kv : Option String) :
    (∀ cache, kv = some cache → cache ≠ "" →
      (getB2 env kv).trace = [getCache] ∧
      (getB2 env kv).result = (env.jsonParse cache).map B2.session) ∧
    (falsy kv = true →
      (∀ r, env.fetch (authorizeRequest env) = .ok r → r.ok = true →
        (getB2 env kv).trace.filter Call.isFetch =
          [.fetch (authorizeRequest env),
            .fetch (uploadUrlRequest env (field r.json "authorizationToken")
              (field r.json "apiUrl"))]) ∧
      ((∀ r, env.fetch (authorizeRequest env) = .ok r → r.ok = false) →
        (getB2 env kv).trace.filter Call.isFetch = [.fetch (authorizeRequest env)])) := by
  refine ⟨?_, ?_⟩
  · intro cache hkv hne
    subst hkv
    have hfalsy : falsy (some cache) = false := by simp [falsy, hne]
    unfold getB2
    rw [if_neg (by simp [hfalsy])]
    cases hparse : env.jsonParse cache with
    | error e => simp [hparse, Except.map]
    | ok sess => simp [hparse, Except.map]
  · intro hmiss
    refine ⟨?_, ?_⟩
    · intro r hf hok
      obtain ⟨rest, ht, hrest⟩ := getB2_miss_trace_authorized env kv r hmiss hf hok
      rw [ht, List.filter_append, hrest]
      simp [getCache, Call.isFetch]
    · intro hauth
      rw [getB2_miss_trace_authorize_failed env kv hmiss hauth]
      simp [getCache, Call.isFetch]

/-- C6 on the example deployment: a cache hit, a miss with a successful
authorization and a miss with a refused one. -/
theorem getB2_calls_witness :
    ((getB2 healEnv (some (stringifySession exampleSession))).trace = [getCache] ∧
      (getB2 healEnv (some (stringifySession exampleSession))).result =
        (healEnv.jsonParse (stringifySession exampleSession)).map B2.session) ∧
    (getB2 healEnv none).trace.filter Call.isFetch =
      [.fetch (authorizeRequest healEnv),
        .fetch (uploadUrlRequest healEnv (field authorized.json "authorizationToken")
          (field authorized.json "apiUrl"))] ∧
    (getB2 authFailEnv (some "")).trace.filter Call.isFetch =
      [.fetch (authorizeRequest authFailEnv)] :=
  ⟨(getB2_calls healEnv (some (stringifySession exampleSession))).1
      (stringifySession exampleSession) rfl (by decide),
    ((getB2_calls healEnv none).2 (by rfl)).1 authorized (by rfl) (by rfl),
    ((getB2_calls authFailEnv (some "")).2 (by rfl)).2 (by
      intro r hr
      have e : authFailEnv.fetch (authorizeRequest authFailEnv) = .ok unauthorized := by rfl
      rw [e] at hr
      cases hr
      rfl)⟩

/-- The handshake failures that `getB2` answers with `false`: a non-success
authorize status, a non-success upload-URL status, an empty `uploadUrl`.  None
of them writes to KV. -/
theorem getB2_handshake_failure (env : Env) (kv : Option String) (hmiss : falsy kv = true) :
    ((∀ r, env.fetch (authorizeRequest env) = .ok r → r.ok = false →
        (getB2 env kv).result = .ok .failed) ∧
      (∀ r u, env.fetch (authorizeRequest env) = .ok r → r.ok = true →
        env.fetch (uploadUrlRequest env (field r.json "authorizationToken")
          (field r.json "apiUrl")) = .ok u →
        (u.ok = false ∨ field u.json "uploadUrl" = .str "") →
        (getB2 env kv).result = .ok .failed)) ∧
    ((∀ sess, (getB2 env kv).result ≠ .ok (.session sess)) →
      (getB2 env kv).trace.filter Call.isPut = [] ∧
      kvAfter kv (getB2 env kv).trace = kv) := by
  refine ⟨⟨?_, ?_⟩, ?_⟩
  · intro r hf hok
    unfold getB2
    rw [if_pos hmiss]
    simp [hf, hok]
  · intro r u hf hok hu hbad
    unfold getB2
    rw [if_pos hmiss]
    simp only [hf, hok, hu, if_true]
    rcases hbad with hbad | hbad
    · simp [hbad]
    · cases huok : u.ok <;> simp [hbad]
  · unfold getB2
    rw [if_pos hmiss]
    cases hf : env.fetch (authorizeRequest env) with
    | error e => intro _; exact ⟨rfl, rfl⟩
    | ok r =>
      cases hok : r.ok with
      | false => intro _; simp [hok, getCache, Call.isPut, kvAfter]
      | true =>
        cases hu : env.fetch (uploadUrlRequest env (field r.json "authorizationToken")
            (field r.json "apiUrl")) with
        | error e => intro _; simp [hok, hu, getCache, Call.isPut, kvAfter]
        | ok u =>
          cases huok : u.ok with
          | false => intro _; simp [hok, hu, huok, getCache, Call.isPut, kvAfter]
          | true =>
            cases hfield : field u.json "uploadUrl" with
            | undefined => intro _; simp [hok, hu, huok, hfield, getCache, Call.isPut, kvAfter]
            | null => intro _; simp [hok, hu, huok, hfield, getCache, Call.isPut, kvAfter]
            | str url =>
              by_cases hlen : url.length > 0
              · intro hno
                exact absurd (by simp [hok, hu, huok, hfield, hlen]) (hno
                  { token := field r.json "authorizationToken", apiurl := field r.json "apiUrl",
                    uploadurl := url, uploadtoken := field u.json "authorizationToken" })
              · intro _
                simp [hok, hu, huok, hfield, hlen, getCache, Call.isPut, kvAfter]

/-- C7, evaluated on an upload-URL answer without the field: the call answers with a
success status and an object without `uploadUrl`; `getB2` then rejects with a
TypeError raised by `data['uploadUrl'].length` instead of resolving to `false`.
It makes no KV write. -/
theorem getB2_absent_uploadUrl_rejects :
    absentUrlEnv.fetch (authorizeRequest absentUrlEnv) = .ok authorized ∧
    authorized.ok = true ∧
    absentUrlEnv.fetch (uploadUrlRequest absentUrlEnv (field authorized.json "authorizationToken")
      (field authorized.json "apiUrl")) = .ok uploadUrlMissing ∧
    uploadUrlMissing.ok = true ∧
    field uploadUrlMissing.json "uploadUrl" = .undefined ∧
    (getB2 absentUrlEnv none).result =
      .error "TypeError: Cannot read properties of undefined (reading length)" ∧
    (getB2 absentUrlEnv none).result ≠ .ok .failed ∧
    (getB2 absentUrlEnv none).trace.filter Call.isPut = [] := by
  refine ⟨by rfl, by rfl, by rfl, by rfl, by rfl, by rfl, ?_, by rfl⟩
  have e : (getB2 absentUrlEnv none).result =
      .error "TypeError: Cannot read properties of undefined (reading length)" := by rfl
  rw [e]
  exact fun h => by cases h

/-! ## The heal writer -/

/-- Every fetch of `getB2` is the authorize call or an upload-URL call. -/
theorem getB2_fetches (env : Env) (kv : Option String) (req : Request)
    (hmem : Call.fetch req ∈ (getB2 env kv).trace) :
    req = authorizeRequest env ∨ ∃ token apiurl, req = uploadUrlRequest env token apiurl := by
  by_cases hmiss : falsy kv = true
  · cases hf : env.fetch (authorizeRequest env) with
    | error e =>
      have hno : ∀ r, env.fetch (authorizeRequest env) = .ok r → r.ok = false := by
        intro r hr
        rw [hf] at hr
        cases hr
      rw [getB2_miss_trace_authorize_failed env kv hmiss hno] at hmem
      simp [getCache] at hmem
      exact Or.inl hmem
    | ok r =>
      cases hok : r.ok with
      | false =>
        have hno : ∀ r2, env.fetch (authorizeRequest env) = .ok r2 → r2.ok = false := by
          intro r2 hr
          rw [hf] at hr
          cases hr
          exact hok
        rw [getB2_miss_trace_authorize_failed env kv hmiss hno] at hmem
        simp [getCache] at hmem
        exact Or.inl hmem
      | true =>
        obtain ⟨rest, ht, hrest⟩ := getB2_miss_trace_authorized env kv r hmiss hf hok
        rw [ht] at hmem
        rcases List.mem_append.mp hmem with h | h
        · simp [getCache] at h
          rcases h with h | h
          · exact Or.inl h
          · exact Or.inr ⟨_, _, h⟩
        · have hin : Call.fetch req ∈ rest.filter Call.isFetch :=
            List.mem_filter.mpr ⟨h, rfl⟩
          rw [hrest] at hin
          simp at hin
  · unfold getB2 at hmem
    rw [if_neg hmiss] at hmem
    cases hp : env.jsonParse (kv.getD "") <;> simp [hp, getCache] at hmem

/-- C5: when the acquisition failed, that is `getB2` resolved to `false`,
`uploadFile` makes no call of its own: its calls are those of the acquisition,
each fetch among them is the authorize or the upload-URL call and none carries
the payload, so no upload call is issued; and it reports failure: its promise
rejects and never resolves to `true`. -/
theorem uploadFile_failed_acquisition (env : Env) (kv : Option String) (fileUpload : Response)
    (path : String) (hfail : (getB2 env kv).result = .ok .failed) :
    (uploadFile env kv fileUpload path).trace = (getB2 env kv).trace ∧
    (∀ req, Call.fetch req ∈ (uploadFile env kv fileUpload path).trace →
      req = authorizeRequest env ∨ ∃ token apiurl, req = uploadUrlRequest env token apiurl) ∧
    (∀ req, Call.fetch req ∈ (uploadFile env kv fileUpload path).trace →
      req.body ≠ .bytes fileUpload.body) ∧
    (∃ e, (uploadFile env kv fileUpload path).result = .error e) ∧
    (uploadFile env kv fileUpload path).result ≠ .ok true := by
  have ht : (uploadFile env kv fileUpload path).trace = (getB2 env kv).trace ∧
      (uploadFile env kv fileUpload path).result = .error "TypeError: Invalid URL" := by
    generalize hg : getB2 env kv = g at hfail
    obtain ⟨t, res⟩ := g
    simp only at hfail
    subst hfail
    unfold uploadFile
    rw [hg]
    simp [fetchCall, uploadRequest, B2.uploadurl]
  have hfetch : ∀ req, Call.fetch req ∈ (uploadFile env kv fileUpload path).trace →
      req = authorizeRequest env ∨ ∃ token apiurl, req = uploadUrlRequest env token apiurl := by
    intro req hmem
    rw [ht.1] at hmem
    exact getB2_fetches env kv req hmem
  refine ⟨ht.1, hfetch, ?_, ⟨_, ht.2⟩, ?_⟩
  · intro req hmem
    rcases hfetch req hmem with h | ⟨token, apiurl, h⟩
    · rw [h]
      simp [authorizeRequest]
    · rw [h]
      simp [uploadUrlRequest]
  · rw [ht.2]
    exact fun h => by cases h

/-- C5 on the example deployment whose authorization is refused. -/
theorem uploadFile_failed_acquisition_witness :
    (getB2 authFailEnv none).result = .ok .failed ∧
    (uploadFile authFailEnv none logoResponse "images/logo.png").trace =
      (getB2 authFailEnv none).trace ∧
    (∀ req, Call.fetch req ∈ (uploadFile authFailEnv none logoResponse "images/logo.png").trace →
      req = authorizeRequest authFailEnv ∨
        ∃ token apiurl, req = uploadUrlRequest authFailEnv token apiurl) ∧
    (∀ req, Call.fetch req ∈ (uploadFile authFailEnv none logoResponse "images/logo.png").trace →
      req.body ≠ .bytes logoResponse.body) ∧
    (∃ e, (uploadFile authFailEnv none logoResponse "images/logo.png").result = .error e) ∧
    (uploadFile authFailEnv none logoResponse "images/logo.png").result ≠ .ok true :=
  ⟨by rfl, uploadFile_failed_acquisition authFailEnv none logoResponse "images/logo.png" (by rfl)⟩

/-- C8: with an acquired session, `uploadFile` makes, after the calls of the
acquisition, exactly one call: a POST to the session's upload URL whose
Authorization is the session's upload token, whose file name is the path, whose
Content-Type and Content-Length are those of the source response, whose SHA-1
header is `digestBuffer` of the payload bytes and whose body is those bytes.
It resolves to `true` exactly when that call answers with a success status.
The path `handleRequest` hands over is the pathname without its first
character. -/
theorem uploadFile_upload_call (env : Env) (kv : Option String) (fileUpload : Response)
    (path : String) (sess : Session)
    (hacq : (getB2 env kv).result = .ok (.session sess)) :
    (uploadFile env kv fileUpload path).trace =
      (getB2 env kv).trace ++
        [.fetch
          { url := .str sess.uploadurl,
            method := "POST",
            headers :=
              [("Authorization", sess.uploadtoken),
               ("X-Bz-File-Name", .str path),
               ("Content-Type", headersGet fileUpload.headers "Content-Type"),
               ("Content-Length", headersGet fileUpload.headers "Content-Length"),
               ("X-Bz-Content-Sha1", .str (digestBuffer env fileUpload.body))],
            body := .bytes fileUpload.body,
            cf := none }] ∧
    ((uploadFile env kv fileUpload path).result = .ok true ↔
      ∃ r, env.fetch (uploadRequest env (.session sess) fileUpload path) = .ok r ∧
        r.ok = true) ∧
    (∀ (event : FetchEvent) (payload : Response) (p : String),
      Call.waitUntil payload p ∈ (handleRequest env event).trace →
        p = String.mk (event.pathname.data.drop 1)) := by
  refine ⟨?_, ?_, ?_⟩
  · generalize hg : getB2 env kv = g at hacq
    obtain ⟨t, res⟩ := g
    simp only at hacq
    subst hacq
    unfold uploadFile
    rw [hg]
    simp only
    have hcall : fetchCall env (uploadRequest env (.session sess) fileUpload path) =
        ⟨[.fetch (uploadRequest env (.session sess) fileUpload path)],
          env.fetch (uploadRequest env (.session sess) fileUpload path)⟩ := rfl
    rw [hcall]
    cases hf : env.fetch (uploadRequest env (.session sess) fileUpload path) with
    | error e => simp [uploadRequest, B2.uploadurl, B2.uploadtoken]
    | ok r => cases hok : r.ok <;> simp [hok, uploadRequest, B2.uploadurl, B2.uploadtoken]
  · generalize hg : getB2 env kv = g at hacq
    obtain ⟨t, res⟩ := g
    simp only at hacq
    subst hacq
    unfold uploadFile
    rw [hg]
    simp only
    have hcall : fetchCall env (uploadRequest env (.session sess) fileUpload path) =
        ⟨[.fetch (uploadRequest env (.session sess) fileUpload path)],
          env.fetch (uploadRequest env (.session sess) fileUpload path)⟩ := rfl
    rw [hcall]
    cases hf : env.fetch (uploadRequest env (.session sess) fileUpload path) with
    | error e => simp
    | ok r => cases hok : r.ok <;> simp [hok]
  · intro event payload p hmem
    unfold handleRequest at hmem
    cases h1 : env.fetch (primaryRequest env event) with
    | error e => simp [h1] at hmem
    | ok r1 =>
      cases hok1 : r1.ok with
      | true => simp [h1, hok1] at hmem
      | false =>
        cases h2 : env.fetch (secondaryRequest env event) with
        | error e => simp [h1, hok1, h2] at hmem
        | ok r2 =>
          cases hok2 : r2.ok with
          | false => simp [h1, hok1, h2, hok2] at hmem
          | true =>
            simp only [h1, hok1, h2, hok2, substring1, Bool.not_false, if_true, List.mem_cons,
              Call.waitUntil.injEq, List.mem_nil_iff, or_false, false_or, reduceCtorEq] at hmem
            exact hmem.2

/-- C8 on the example deployment, with the session of a fresh handshake. -/
theorem uploadFile_upload_call_witness :
    (getB2 healEnv none).result = .ok (.session exampleSession) ∧
    (uploadFile healEnv none logoResponse "images/logo.png").trace =
      (getB2 healEnv none).trace ++
        [.fetch
          { url := .str exampleSession.uploadurl,
            method := "POST",
            headers :=
              [("Authorization", exampleSession.uploadtoken),
               ("X-Bz-File-Name", .str "images/logo.png"),
               ("Content-Type", headersGet logoResponse.headers "Content-Type"),
               ("Content-Length", headersGet logoResponse.headers "Content-Length"),
               ("X-Bz-Content-Sha1", .str (digestBuffer healEnv logoResponse.body))],
            body := .bytes logoResponse.body,
            cf := none }] ∧
    ((uploadFile healEnv none logoResponse "images/logo.png").result = .ok true ↔
      ∃ r, healEnv.fetch (uploadRequest healEnv (.session exampleSession) logoResponse
          "images/logo.png") = .ok r ∧ r.ok = true) ∧
    (∀ (event : FetchEvent) (payload : Response) (p : String),
      Call.waitUntil payload p ∈ (handleRequest healEnv event).trace →
        p = String.mk (event.pathname.data.drop 1)) :=
  ⟨by rfl,
    uploadFile_upload_call healEnv none logoResponse "images/logo.png" exampleSession (by rfl)⟩

/-- C9, evaluated on the example handshake: on a cache miss with a successful
authorization, the upload-URL call is a POST to the returned `apiUrl` followed
by `/b2api/v2/b2_get_upload_url` with the returned token as Authorization, and
its body is the JSON object whose only field is named `BUCKET_ID`; no field
`bucketId` is sent. -/
theorem getB2_upload_url_request_body :
    (getB2 healEnv none).trace.filter Call.isFetch =
      [.fetch (authorizeRequest healEnv),
        .fetch
          { url := .str "https://api001.backblazeb2.com/b2api/v2/b2_get_upload_url",
            method := "POST",
            headers := [("Authorization", .str "acct-token")],
            body := .text "\x7b\"BUCKET_ID\":\"e73ede9969c64427a54\"\x7d",
            cf := none }] ∧
    (uploadUrlRequest healEnv (.str "acct-token") (.str "https://api001.backblazeb2.com")).body ≠
      .text (stringify [("bucketId", .str healEnv.BUCKET_ID)]) := by
  refine ⟨by rfl, by decide⟩

end B2Worker
